import Mathlib

/-!
Verification of the magic-wormhole-rs mailbox server and client crypto.

The Rust source is shallowly embedded:
* `HashMap` becomes an association list with explicit lookup / insert /
  erase / retain operations (iteration order never matters for the
  properties below; all statements are phrased via lookup or membership).
* `UnboundedSender` handles become `Nat` identifiers; `same_receiver`
  becomes equality of identifiers.  Enqueuing a `ServerMessage` on a
  handle is recorded in an explicit output list of `Send`s.
* `f64` timestamps are carried opaquely as `Nat` (no arithmetic is ever
  performed on them by the embedded code).
* Rust panics (`expect`, `assert!`, slice `split_at` out of range,
  `String::from_utf8(..).expect`) become `Option.none` results.
* Byte strings (`&[u8]`, `Vec<u8>`) become `List Nat` with values < 256;
  `&str` values handled by the crypto code become their UTF-8 byte lists.
-/

/-- `Phase` from src/message.rs: `pake`, `version`, or a numeric
application phase. -/
inductive Phase where
  | pake : Phase
  | version : Phase
  | message : Nat → Phase
deriving DecidableEq, Repr

/-- `Mood` from src/message.rs. -/
inductive Mood where
  | happy | lonely | scary | errory
deriving DecidableEq, Repr

/-- `PermissionMethod` from src/message.rs. -/
inductive PermissionMethod where
  | nonePerm
deriving DecidableEq, Repr

/-- `WelcomeInfo` from src/message.rs. -/
structure WelcomeInfo where
  motd : Option String
  error : Option String
  permission_required : List PermissionMethod
deriving DecidableEq, Repr

/-- `NameplateInfo` from src/message.rs. -/
structure NameplateInfo where
  id : Nat
deriving DecidableEq, Repr

/-- `ClientMessageType` from src/message.rs. -/
inductive ClientMessageType where
  | submitPermissions
  | bind (app_id : String) (side : String)
  | list
  | allocate
  | claim (nameplate_id : Nat)
  | release (nameplate_id : Option Nat)
  | openMailbox (mailbox_id : String)
  | add (phase : Phase) (body : List Nat)
  | close (mailbox_id : String) (mood : Mood)
  | ping (ping : Nat)
deriving DecidableEq, Repr

/-- `ClientMessage` from src/message.rs. -/
structure ClientMessage where
  id : String
  ty : ClientMessageType
deriving DecidableEq, Repr

/-- `ServerMessageType` from src/message.rs. -/
inductive ServerMessageType where
  | welcome (welcome : WelcomeInfo)
  | nameplates (nameplates : List NameplateInfo)
  | allocated (nameplate_id : Nat)
  | claimed (mailbox_id : String)
  | released
  | message (side : String) (phase : Phase) (body : List Nat)
  | closed
  | ack
  | pong (ping : Nat)
  | error (error : String) (orig : ClientMessage)
deriving DecidableEq, Repr

/-- `ServerMessage` from src/message.rs: envelope with optional id,
`server_tx` stamped at construction time, optional `server_rx`. -/
structure ServerMessage where
  id : Option String
  server_tx : Nat
  server_rx : Option Nat
  ty : ServerMessageType
deriving DecidableEq, Repr

/-- `ServerMessage::new` (src/message.rs lines 192-202): `server_tx` is
filled with the current timestamp, passed here as `now`. -/
def ServerMessage.new (id : Option String) (server_rx : Option Nat)
    (ty : ServerMessageType) (now : Nat) : ServerMessage :=
  { id := id, server_tx := now, server_rx := server_rx, ty := ty }

/-- `ServerMessage::ack` (src/message.rs lines 205-207). -/
def ServerMessage.ack (id : String) (now : Nat) : ServerMessage :=
  ServerMessage.new (some id) none ServerMessageType.ack now

/-- `ServerMessage::error` (src/message.rs lines 210-223). -/
def ServerMessage.error (client_msg : ClientMessage) (error : String)
    (now : Nat) : ServerMessage :=
  { id := some client_msg.id
    server_tx := now
    server_rx := none
    ty := ServerMessageType.error error client_msg }

/-- `MailboxMessage` from src/mailbox_server/app.rs. -/
structure MailboxMessage where
  id : String
  timestamp : Nat
  side : String
  phase : Phase
  body : List Nat
deriving DecidableEq, Repr

/-- `Subscriber` from src/mailbox_server/app.rs; the
`UnboundedSender` handle is a `Nat` identifier. -/
structure Subscriber where
  side : String
  sender : Nat
deriving DecidableEq, Repr

/-- `Mailbox` from src/mailbox_server/app.rs. -/
structure Mailbox where
  messages : List MailboxMessage
  subscribers : List Subscriber
deriving DecidableEq, Repr

/-- `Nameplate` from src/mailbox_server/app.rs. -/
structure Nameplate where
  mailbox_id : String
  sides : List String
deriving DecidableEq, Repr

/-- `App` from src/mailbox_server/app.rs; the two `HashMap`s become
association lists. -/
structure App where
  nameplates : List (Nat × Nameplate)
  mailboxes : List (String × Mailbox)
deriving DecidableEq, Repr

/-- `App::default()`. -/
def App.empty : App := { nameplates := [], mailboxes := [] }

/-- An enqueue of a `ServerMessage` onto the outbound queue identified
by the `Nat` handle. -/
abbrev Send := Nat × ServerMessage

/-- Association-list lookup (model of `HashMap::get`). -/
def alLookup {κ α : Type} [DecidableEq κ] (l : List (κ × α)) (k : κ) :
    Option α :=
  match l with
  | [] => none
  | p :: rest => if p.1 = k then some p.2 else alLookup rest k

/-- Association-list insert-or-replace (model of `HashMap::insert`). -/
def alInsert {κ α : Type} [DecidableEq κ] : List (κ × α) → κ → α →
    List (κ × α)
  | [], k, v => [(k, v)]
  | p :: rest, k, v =>
    if p.1 = k then (k, v) :: rest else p :: alInsert rest k v

/-- Association-list erase (model of `HashMap::remove`). -/
def alErase {κ α : Type} [DecidableEq κ] (l : List (κ × α)) (k : κ) :
    List (κ × α) :=
  l.filter (fun p => p.1 ≠ k)

/-- The envelope forwarded for a stored/broadcast message, built exactly
as in `Mailbox::add_message` and `Mailbox::add_subscriber`
(src/mailbox_server/app.rs lines 65-73 and 101-109). -/
def forwardEnvelope (m : MailboxMessage) (now : Nat) : ServerMessage :=
  ServerMessage.new (some m.id) (some m.timestamp)
    (ServerMessageType.message m.side m.phase m.body) now

/-- `Mailbox::add_message` (src/mailbox_server/app.rs lines 63-86):
forward the new message to every subscriber, then push it onto
`messages`.  Returns the updated mailbox and the enqueued sends. -/
def Mailbox.add_message (mb : Mailbox) (msg : MailboxMessage) (now : Nat) :
    Mailbox × List Send :=
  ({ mb with messages := mb.messages ++ [msg] },
   mb.subscribers.map (fun s => (s.sender, forwardEnvelope msg now)))

/-- `Mailbox::add_subscriber` (src/mailbox_server/app.rs lines 89-119):
if the side is already subscribed do nothing; otherwise replay every
stored message to the new subscriber's queue and append the subscriber. -/
def Mailbox.add_subscriber (mb : Mailbox) (side : String) (sender : Nat)
    (now : Nat) : Mailbox × List Send :=
  if mb.subscribers.any (fun s => s.side = side) then
    (mb, [])
  else
    ({ mb with subscribers := mb.subscribers ++ [⟨side, sender⟩] },
     mb.messages.map (fun m => (sender, forwardEnvelope m now)))

/-- `Mailbox::remove_subscriber` (src/mailbox_server/app.rs
lines 122-124). -/
def Mailbox.remove_subscriber (mb : Mailbox) (side : String) : Mailbox :=
  { mb with subscribers := mb.subscribers.filter (fun s => s.side ≠ side) }

/-- `App::open_mailbox` (src/mailbox_server/app.rs lines 205-231): create
the mailbox if absent, add the subscriber (with replay), report crowding
when the subscriber count reaches 3.  The `Option Unit` mirrors the Rust
return value (`None` = crowded). -/
def App.open_mailbox (app : App) (mailbox_id : String) (side : String)
    (sender : Nat) (now : Nat) : App × List Send × Option Unit :=
  let mb0 := match alLookup app.mailboxes mailbox_id with
             | some mb => mb
             | none => { messages := [], subscribers := [] }
  let res := mb0.add_subscriber side sender now
  let app' := { app with mailboxes := alInsert app.mailboxes mailbox_id res.1 }
  (app', res.2, if res.1.subscribers.length ≥ 3 then none else some ())

/-- `App::close_mailbox` (src/mailbox_server/app.rs lines 234-243):
panics (`expect`) on a missing mailbox, hence the outer `Option`. -/
def App.close_mailbox (app : App) (mailbox_id : String) (side : String) :
    Option App :=
  match alLookup app.mailboxes mailbox_id with
  | none => none
  | some mb =>
    let mb' := mb.remove_subscriber side
    if mb'.subscribers.isEmpty then
      some { app with mailboxes := alErase app.mailboxes mailbox_id }
    else
      some { app with mailboxes := alInsert app.mailboxes mailbox_id mb' }

/-- `App::add_message_to_mailbox` (src/mailbox_server/app.rs
lines 247-264): panics on a missing mailbox; adds the message, then
sweeps every mailbox whose subscriber list is empty. -/
def App.add_message_to_mailbox (app : App) (mailbox_id : String)
    (message : MailboxMessage) (now : Nat) : Option (App × List Send) :=
  match alLookup app.mailboxes mailbox_id with
  | none => none
  | some mb =>
    let res := mb.add_message message now
    let mbs := alInsert app.mailboxes mailbox_id res.1
    some ({ app with
            mailboxes := mbs.filter (fun p => ¬ p.2.subscribers.isEmpty) },
          res.2)

/-- `App::claim_nameplate` (src/mailbox_server/app.rs lines 145-183).
The randomly generated mailbox id is passed in as `freshMid`; the
`assert!(!nameplate.sides.is_empty())` becomes the outer `Option`.  The
inner `Option String` mirrors the Rust return (`None` = crowded). -/
def App.claim_nameplate (app : App) (nameplate_id : Nat) (side : String)
    (sender : Nat) (freshMid : String) (now : Nat) :
    Option (App × List Send × Option String) :=
  match alLookup app.nameplates nameplate_id with
  | some np =>
    if np.sides.isEmpty then none
    else if side ∈ np.sides then
      some (app, [], some np.mailbox_id)
    else
      let np' := { np with sides := np.sides ++ [side] }
      let app' := { app with
                    nameplates := alInsert app.nameplates nameplate_id np' }
      some (app', [],
            if np'.sides.length ≥ 3 then none else some np.mailbox_id)
  | none =>
    let res := app.open_mailbox freshMid side sender now
    let app' := { res.1 with
                  nameplates := alInsert res.1.nameplates nameplate_id
                    { mailbox_id := freshMid, sides := [side] } }
    some (app', res.2.1, some freshMid)

/-- `App::allocate_nameplate` (src/mailbox_server/app.rs lines 130-142):
scan ids 1..999 ascending, claim the first free one.  The inner
`Option Nat` mirrors the Rust return (`None` = exhausted). -/
def App.allocate_nameplate (app : App) (side : String) (sender : Nat)
    (freshMid : String) (now : Nat) :
    Option (App × List Send × Option Nat) :=
  match (List.range' 1 998).find?
      (fun i => (alLookup app.nameplates i).isNone) with
  | some i =>
    match app.claim_nameplate i side sender freshMid now with
    | none => none
    | some res => some (res.1, res.2.1, some i)
  | none => some (app, [], none)

/-- `App::release_nameplate` (src/mailbox_server/app.rs lines 188-197):
remove the side; free the nameplate if it becomes empty; ignore unknown
nameplates. -/
def App.release_nameplate (app : App) (nameplate_id : Nat) (side : String) :
    App :=
  match alLookup app.nameplates nameplate_id with
  | none => app
  | some np =>
    let np' := { np with sides := np.sides.filter (fun s => s ≠ side) }
    if np'.sides.isEmpty then
      { app with nameplates := alErase app.nameplates nameplate_id }
    else
      { app with nameplates := alInsert app.nameplates nameplate_id np' }

/-- `App::remove_side_from_nameplates` (src/mailbox_server/app.rs
lines 268-285): drop the side from every nameplate, then drop every now
empty nameplate. -/
def App.remove_side_from_nameplates (app : App) (side : String) : App :=
  { app with
    nameplates :=
      (app.nameplates.map
        (fun p => (p.1, { p.2 with
                          sides := p.2.sides.filter (fun s => s ≠ side) })))
        |>.filter (fun p => ¬ p.2.sides.isEmpty) }

/-- `App::remove_subscriber_from_mailboxes` (src/mailbox_server/app.rs
lines 288-300): drop every subscriber whose sender handle matches; the
mailboxes themselves are left in place (no reaping here). -/
def App.remove_subscriber_from_mailboxes (app : App) (sender : Nat) : App :=
  { app with
    mailboxes :=
      app.mailboxes.map
        (fun p => (p.1, { p.2 with
                          subscribers :=
                            p.2.subscribers.filter
                              (fun s => s.sender ≠ sender) })) }

/-- One public `App` operation, with every non-deterministic input (the
random mailbox id, the clock reading, the caller's handle) made an
explicit parameter. -/
inductive Op where
  | allocate (side : String) (sender : Nat) (freshMid : String) (now : Nat)
  | claim (nameplate_id : Nat) (side : String) (sender : Nat)
      (freshMid : String) (now : Nat)
  | release (nameplate_id : Nat) (side : String)
  | openMb (mailbox_id : String) (side : String) (sender : Nat) (now : Nat)
  | closeMb (mailbox_id : String) (side : String)
  | addMessage (mailbox_id : String) (msg : MailboxMessage) (now : Nat)
  | removeSide (side : String)
  | removeSubscriber (sender : Nat)
deriving DecidableEq, Repr

/-- Execute one operation; `none` is a Rust panic. -/
def App.step (app : App) : Op → Option (App × List Send)
  | Op.allocate side sender freshMid now =>
    (app.allocate_nameplate side sender freshMid now).map
      (fun r => (r.1, r.2.1))
  | Op.claim nameplate_id side sender freshMid now =>
    (app.claim_nameplate nameplate_id side sender freshMid now).map
      (fun r => (r.1, r.2.1))
  | Op.release nameplate_id side => some (app.release_nameplate nameplate_id side, [])
  | Op.openMb mailbox_id side sender now =>
    let r := app.open_mailbox mailbox_id side sender now
    some (r.1, r.2.1)
  | Op.closeMb mailbox_id side =>
    (app.close_mailbox mailbox_id side).map (fun a => (a, []))
  | Op.addMessage mailbox_id msg now =>
    app.add_message_to_mailbox mailbox_id msg now
  | Op.removeSide side => some (app.remove_side_from_nameplates side, [])
  | Op.removeSubscriber sender =>
    some (app.remove_subscriber_from_mailboxes sender, [])

/-- Execute a sequence of operations, concatenating the emitted sends in
order; `none` as soon as any operation panics. -/
def App.run (app : App) : List Op → Option (App × List Send)
  | [] => some (app, [])
  | op :: ops =>
    match app.step op with
    | none => none
    | some (app', sends) =>
      match app'.run ops with
      | none => none
      | some (app'', sends') => some (app'', sends ++ sends')


/-- Every entry of an insert-or-replace either carries the new value or
was already present. -/
theorem mem_alInsert {κ α : Type} [DecidableEq κ] {l : List (κ × α)}
    {k : κ} {v : α} {q : κ × α} (h : q ∈ alInsert l k v) :
    q.2 = v ∨ q ∈ l := by
  induction l with
  | nil =>
    simp [alInsert] at h
    left; rw [h]
  | cons p rest ih =>
    by_cases hk : p.1 = k
    · simp [alInsert, hk] at h
      rcases h with h | h
      · left; rw [h]
      · right; exact List.mem_cons_of_mem _ h
    · simp [alInsert, hk] at h
      rcases h with h | h
      · right; rw [h]; exact List.mem_cons_self _ _
      · rcases ih h with h' | h'
        · left; exact h'
        · right; exact List.mem_cons_of_mem _ h'

/-- Lookup after insert at the same key. -/
theorem alLookup_alInsert_self {κ α : Type} [DecidableEq κ]
    (l : List (κ × α)) (k : κ) (v : α) :
    alLookup (alInsert l k v) k = some v := by
  induction l with
  | nil => simp [alInsert, alLookup]
  | cons p rest ih =>
    by_cases hk : p.1 = k
    · simp [alInsert, hk, alLookup]
    · simp [alInsert, hk, alLookup]
      exact ih

/-- Lookup after insert at a different key. -/
theorem alLookup_alInsert_ne {κ α : Type} [DecidableEq κ]
    (l : List (κ × α)) (k j : κ) (v : α) (hjk : j ≠ k) :
    alLookup (alInsert l k v) j = alLookup l j := by
  induction l with
  | nil =>
    simp [alInsert, alLookup]
    intro h
    exact absurd h.symm hjk
  | cons p rest ih =>
    by_cases hk : p.1 = k
    · have hpj : ¬ (p.1 = j) := by rw [hk]; exact fun h => hjk h.symm
      have hkj : ¬ (k = j) := fun h => hjk h.symm
      simp [alInsert, hk, alLookup, hkj, hpj]
    · by_cases hj : p.1 = j
      · simp [alInsert, hk, alLookup, hj, hjk]
      · simp [alInsert, hk, alLookup, hj]
        exact ih

/-- Every entry of an erase was present before. -/
theorem mem_alErase {κ α : Type} [DecidableEq κ] {l : List (κ × α)}
    {k : κ} {q : κ × α} (h : q ∈ alErase l k) : q ∈ l :=
  List.mem_of_mem_filter h

/-- `App.open_mailbox` does not touch the nameplates map. -/
theorem open_mailbox_nameplates (app : App) (mid side : String)
    (sender now : Nat) :
    (app.open_mailbox mid side sender now).1.nameplates = app.nameplates := by
  simp [App.open_mailbox]

/-- Invariant: every nameplate in the registry has a non-empty sides
list. -/
def App.nameplateInv (app : App) : Prop :=
  ∀ p ∈ app.nameplates, p.2.sides ≠ []

/-- Invariant: every mailbox in the registry has a non-empty subscriber
list. -/
def App.mailboxInv (app : App) : Prop :=
  ∀ p ∈ app.mailboxes, p.2.subscribers ≠ []

/-- `add_subscriber` always leaves at least one subscriber: either the
side was already present (so the list was non-empty) or it is appended. -/
theorem add_subscriber_ne_nil (mb : Mailbox) (side : String)
    (sender now : Nat) :
    (mb.add_subscriber side sender now).1.subscribers ≠ [] := by
  unfold Mailbox.add_subscriber
  split
  · rename_i h
    rcases List.any_eq_true.mp h with ⟨s, hs, _⟩
    intro hnil
    dsimp only at hnil
    rw [hnil] at hs
    exact (List.not_mem_nil s) hs
  · simp

/-- `open_mailbox` preserves the mailbox invariant. -/
theorem open_mailbox_mailboxInv {app : App} (mid side : String)
    (sender now : Nat) (hinv : app.mailboxInv) :
    (app.open_mailbox mid side sender now).1.mailboxInv := by
  intro p hp
  simp only [App.open_mailbox] at hp
  rcases mem_alInsert hp with h | h
  · rw [h]
    exact add_subscriber_ne_nil _ side sender now
  · exact hinv p h

/-- `close_mailbox` preserves the mailbox invariant. -/
theorem close_mailbox_mailboxInv {app : App} {mid side : String}
    {app' : App} (hinv : app.mailboxInv)
    (h : app.close_mailbox mid side = some app') : app'.mailboxInv := by
  unfold App.close_mailbox at h
  cases hl : alLookup app.mailboxes mid with
  | none => rw [hl] at h; simp at h
  | some mb =>
    rw [hl] at h
    dsimp only at h
    by_cases he : (mb.remove_subscriber side).subscribers.isEmpty = true
    · rw [if_pos he] at h
      intro p hp
      rw [← Option.some.inj h] at hp
      exact hinv p (mem_alErase hp)
    · rw [if_neg he] at h
      intro p hp
      rw [← Option.some.inj h] at hp
      rcases mem_alInsert hp with h' | h'
      · rw [h']
        intro hnil
        rw [List.isEmpty_iff] at he
        exact he hnil
      · exact hinv p h'

/-- `add_message_to_mailbox` leaves only mailboxes with subscribers (the
sweep). -/
theorem add_message_mailboxInv {app : App} {mid : String}
    {msg : MailboxMessage} {now : Nat} {res : App × List Send}
    (h : app.add_message_to_mailbox mid msg now = some res) :
    res.1.mailboxInv := by
  unfold App.add_message_to_mailbox at h
  split at h
  · exact absurd h (by simp)
  · cases h
    intro p hp
    have := List.of_mem_filter hp
    simpa using this

/-- `claim_nameplate` preserves the mailbox invariant. -/
theorem claim_nameplate_mailboxInv {app : App} {nid : Nat} {side : String}
    {sender : Nat} {fresh : String} {now : Nat}
    {res : App × List Send × Option String} (hinv : app.mailboxInv)
    (h : app.claim_nameplate nid side sender fresh now = some res) :
    res.1.mailboxInv := by
  unfold App.claim_nameplate at h
  split at h
  · split at h
    · exact absurd h (by simp)
    · split at h
      · cases h
        exact hinv
      · cases h
        exact hinv
  · cases h
    exact open_mailbox_mailboxInv fresh side sender now hinv

/-- `allocate_nameplate` preserves the mailbox invariant. -/
theorem allocate_nameplate_mailboxInv {app : App} {side : String}
    {sender : Nat} {fresh : String} {now : Nat}
    {res : App × List Send × Option Nat} (hinv : app.mailboxInv)
    (h : app.allocate_nameplate side sender fresh now = some res) :
    res.1.mailboxInv := by
  unfold App.allocate_nameplate at h
  split at h
  · split at h
    · exact absurd h (by simp)
    · rename_i r hr
      cases h
      exact claim_nameplate_mailboxInv hinv hr
  · cases h
    exact hinv

/-- `claim_nameplate` preserves the nameplate invariant. -/
theorem claim_nameplate_nameplateInv {app : App} {nid : Nat}
    {side : String} {sender : Nat} {fresh : String} {now : Nat}
    {res : App × List Send × Option String} (hinv : app.nameplateInv)
    (h : app.claim_nameplate nid side sender fresh now = some res) :
    res.1.nameplateInv := by
  unfold App.claim_nameplate at h
  split at h
  · split at h
    · simp at h
    · split at h
      · rw [← Option.some.inj h]
        exact hinv
      · rw [← Option.some.inj h]
        intro p hp
        dsimp only at hp
        rcases mem_alInsert hp with h' | h'
        · rw [h']
          simp
        · exact hinv p h'
  · rw [← Option.some.inj h]
    intro p hp
    dsimp only at hp
    rw [open_mailbox_nameplates] at hp
    rcases mem_alInsert hp with h' | h'
    · rw [h']
      simp
    · exact hinv p h'

/-- `allocate_nameplate` preserves the nameplate invariant. -/
theorem allocate_nameplate_nameplateInv {app : App} {side : String}
    {sender : Nat} {fresh : String} {now : Nat}
    {res : App × List Send × Option Nat} (hinv : app.nameplateInv)
    (h : app.allocate_nameplate side sender fresh now = some res) :
    res.1.nameplateInv := by
  unfold App.allocate_nameplate at h
  split at h
  · split at h
    · simp at h
    · rename_i r hr
      rw [← Option.some.inj h]
      exact claim_nameplate_nameplateInv hinv hr
  · rw [← Option.some.inj h]
    exact hinv

/-- `release_nameplate` preserves the nameplate invariant. -/
theorem release_nameplate_nameplateInv {app : App} (nid : Nat)
    (side : String) (hinv : app.nameplateInv) :
    (app.release_nameplate nid side).nameplateInv := by
  unfold App.release_nameplate
  split
  · exact hinv
  · dsimp only
    split
    · intro p hp
      exact hinv p (mem_alErase hp)
    · rename_i hne
      intro p hp
      rcases mem_alInsert hp with h' | h'
      · rw [h']
        intro hnil
        rw [List.isEmpty_iff] at hne
        exact hne hnil
      · exact hinv p h'

/-- `remove_side_from_nameplates` preserves the nameplate invariant (the
final retain keeps only non-empty nameplates). -/
theorem remove_side_nameplateInv (app : App) (side : String) :
    (app.remove_side_from_nameplates side).nameplateInv := by
  intro p hp
  have := List.of_mem_filter hp
  simpa using this

/-- `close_mailbox` does not touch the nameplates map. -/
theorem close_mailbox_nameplates {app : App} {mid side : String}
    {app' : App} (h : app.close_mailbox mid side = some app') :
    app'.nameplates = app.nameplates := by
  unfold App.close_mailbox at h
  split at h
  · simp at h
  · dsimp only at h
    split at h
    · rw [← Option.some.inj h]
    · rw [← Option.some.inj h]

/-- `add_message_to_mailbox` does not touch the nameplates map. -/
theorem add_message_nameplates {app : App} {mid : String}
    {msg : MailboxMessage} {now : Nat} {res : App × List Send}
    (h : app.add_message_to_mailbox mid msg now = some res) :
    res.1.nameplates = app.nameplates := by
  unfold App.add_message_to_mailbox at h
  split at h
  · simp at h
  · dsimp only at h
    rw [← Option.some.inj h]

/-- Whether an operation is the disconnect cleanup
`remove_subscriber_from_mailboxes`. -/
def Op.isRemoveSubscriber : Op → Bool
  | Op.removeSubscriber _ => true
  | _ => false

/-- Every single operation preserves the nameplate invariant. -/
theorem step_nameplateInv {app : App} {op : Op} {res : App × List Send}
    (hinv : app.nameplateInv) (h : app.step op = some res) :
    res.1.nameplateInv := by
  cases op with
  | allocate side sender fresh now =>
    simp only [App.step] at h
    cases ha : app.allocate_nameplate side sender fresh now with
    | none => rw [ha] at h; simp at h
    | some r =>
      rw [ha, Option.map_some'] at h
      rw [← Option.some.inj h]
      exact allocate_nameplate_nameplateInv hinv ha
  | claim nid side sender fresh now =>
    simp only [App.step] at h
    cases ha : app.claim_nameplate nid side sender fresh now with
    | none => rw [ha] at h; simp at h
    | some r =>
      rw [ha, Option.map_some'] at h
      rw [← Option.some.inj h]
      exact claim_nameplate_nameplateInv hinv ha
  | release nid side =>
    simp only [App.step] at h
    rw [← Option.some.inj h]
    exact release_nameplate_nameplateInv nid side hinv
  | openMb mid side sender now =>
    simp only [App.step] at h
    rw [← Option.some.inj h]
    intro p hp
    dsimp only at hp
    rw [open_mailbox_nameplates] at hp
    exact hinv p hp
  | closeMb mid side =>
    simp only [App.step] at h
    cases hc : app.close_mailbox mid side with
    | none => rw [hc] at h; simp at h
    | some a =>
      rw [hc, Option.map_some'] at h
      rw [← Option.some.inj h]
      intro p hp
      dsimp only at hp
      rw [close_mailbox_nameplates hc] at hp
      exact hinv p hp
  | addMessage mid msg now =>
    simp only [App.step] at h
    intro p hp
    rw [add_message_nameplates h] at hp
    exact hinv p hp
  | removeSide side =>
    simp only [App.step] at h
    rw [← Option.some.inj h]
    exact remove_side_nameplateInv app side
  | removeSubscriber sender =>
    simp only [App.step] at h
    rw [← Option.some.inj h]
    intro p hp
    dsimp only [App.remove_subscriber_from_mailboxes] at hp
    exact hinv p hp

/-- Every single operation other than the disconnect cleanup preserves
the mailbox invariant. -/
theorem step_mailboxInv {app : App} {op : Op} {res : App × List Send}
    (hop : op.isRemoveSubscriber = false) (hinv : app.mailboxInv)
    (h : app.step op = some res) : res.1.mailboxInv := by
  cases op with
  | allocate side sender fresh now =>
    simp only [App.step] at h
    cases ha : app.allocate_nameplate side sender fresh now with
    | none => rw [ha] at h; simp at h
    | some r =>
      rw [ha, Option.map_some'] at h
      rw [← Option.some.inj h]
      exact allocate_nameplate_mailboxInv hinv ha
  | claim nid side sender fresh now =>
    simp only [App.step] at h
    cases ha : app.claim_nameplate nid side sender fresh now with
    | none => rw [ha] at h; simp at h
    | some r =>
      rw [ha, Option.map_some'] at h
      rw [← Option.some.inj h]
      exact claim_nameplate_mailboxInv hinv ha
  | release nid side =>
    simp only [App.step] at h
    rw [← Option.some.inj h]
    intro p hp
    dsimp only [App.release_nameplate] at hp
    revert hp
    split
    · exact fun hp => hinv p hp
    · split
      · exact fun hp => hinv p hp
      · exact fun hp => hinv p hp
  | openMb mid side sender now =>
    simp only [App.step] at h
    rw [← Option.some.inj h]
    exact open_mailbox_mailboxInv mid side sender now hinv
  | closeMb mid side =>
    simp only [App.step] at h
    cases hc : app.close_mailbox mid side with
    | none => rw [hc] at h; simp at h
    | some a =>
      rw [hc, Option.map_some'] at h
      rw [← Option.some.inj h]
      exact close_mailbox_mailboxInv hinv hc
  | addMessage mid msg now =>
    simp only [App.step] at h
    exact add_message_mailboxInv h
  | removeSide side =>
    simp only [App.step] at h
    rw [← Option.some.inj h]
    intro p hp
    dsimp only [App.remove_side_from_nameplates] at hp
    exact hinv p hp
  | removeSubscriber sender =>
    simp [Op.isRemoveSubscriber] at hop

/-- Running a sequence of operations preserves the nameplate
invariant. -/
theorem run_nameplateInv {app : App} {ops : List Op}
    {res : App × List Send} (hinv : app.nameplateInv)
    (h : app.run ops = some res) : res.1.nameplateInv := by
  induction ops generalizing app res with
  | nil =>
    unfold App.run at h
    rw [← Option.some.inj h]
    exact hinv
  | cons op rest ih =>
    unfold App.run at h
    cases hs : app.step op with
    | none => rw [hs] at h; simp at h
    | some r =>
      obtain ⟨rapp, rsends⟩ := r
      rw [hs] at h
      dsimp only at h
      cases hr : rapp.run rest with
      | none => rw [hr] at h; simp at h
      | some r' =>
        obtain ⟨rapp', rsends'⟩ := r'
        rw [hr] at h
        dsimp only at h
        rw [← Option.some.inj h]
        have hres := ih (step_nameplateInv hinv hs) hr
        exact hres

/-- Running a sequence of operations that contains no disconnect cleanup
preserves the mailbox invariant. -/
theorem run_mailboxInv {app : App} {ops : List Op} {res : App × List Send}
    (hops : ∀ op ∈ ops, op.isRemoveSubscriber = false)
    (hinv : app.mailboxInv) (h : app.run ops = some res) :
    res.1.mailboxInv := by
  induction ops generalizing app res with
  | nil =>
    unfold App.run at h
    rw [← Option.some.inj h]
    exact hinv
  | cons op rest ih =>
    unfold App.run at h
    cases hs : app.step op with
    | none => rw [hs] at h; simp at h
    | some r =>
      obtain ⟨rapp, rsends⟩ := r
      rw [hs] at h
      dsimp only at h
      cases hr : rapp.run rest with
      | none => rw [hr] at h; simp at h
      | some r' =>
        obtain ⟨rapp', rsends'⟩ := r'
        rw [hr] at h
        dsimp only at h
        rw [← Option.some.inj h]
        have hres := ih (fun o ho => hops o (List.mem_cons_of_mem _ ho))
          (step_mailboxInv (hops op (List.mem_cons_self _ _)) hinv hs) hr
        exact hres

/-- Lookup through a value-map of an association list. -/
theorem alLookup_mapVals {κ α β : Type} [DecidableEq κ] (f : α → β)
    (l : List (κ × α)) (k : κ) :
    alLookup (l.map (fun p => (p.1, f p.2))) k = (alLookup l k).map f := by
  induction l with
  | nil => simp [alLookup]
  | cons p rest ih =>
    by_cases hk : p.1 = k
    · simp [alLookup, hk]
    · simp [alLookup, hk]
      exact ih

/-- C6: for every sequence of App operations starting from the empty
App, every Nameplate present in the nameplates map has a non-empty
sides list. -/
theorem C6_nameplates_nonempty_sides (ops : List Op)
    (res : App × List Send) (h : App.empty.run ops = some res) :
    res.1.nameplateInv :=
  run_nameplateInv (fun p hp => absurd hp (List.not_mem_nil p)) h

/-- Witness for C6: a concrete claim followed by nothing still satisfies
the invariant. -/
theorem C6_witness :
    App.empty.run [Op.claim 5 "a" 7 "m" 0] =
      some ({ nameplates := [(5, { mailbox_id := "m", sides := ["a"] })],
              mailboxes := [("m", { messages := [],
                                    subscribers := [⟨"a", 7⟩] })] }, []) ∧
    (({ nameplates := [(5, { mailbox_id := "m", sides := ["a"] })],
        mailboxes := [("m", { messages := [],
                              subscribers := [⟨"a", 7⟩] })] } : App),
      ([] : List Send)).1.nameplateInv :=
  ⟨by decide, C6_nameplates_nonempty_sides [Op.claim 5 "a" 7 "m" 0] _
    (by decide)⟩

/-- C1 counterexample: after `open_mailbox "m" "s"` followed by the
disconnect cleanup `remove_subscriber_from_mailboxes`, the mailbox `"m"`
is still present in the map with an empty subscribers list — it is not
deleted, so the claimed invariant fails after that operation. -/
theorem C1_counterexample :
    (App.empty.run [Op.openMb "m" "s" 0 0, Op.removeSubscriber 0]).map
      (fun r => alLookup r.1.mailboxes "m") =
    some (some { messages := [], subscribers := [] }) := by decide

/-- C1 (amended): after every App operation other than
`remove_subscriber_from_mailboxes`, every Mailbox present in the map has
a non-empty subscribers list; `remove_subscriber_from_mailboxes` only
filters the matching subscriber entries out of each mailbox and leaves
every mailbox (possibly now empty) in the map. -/
theorem C1_mailbox_invariant_amended (ops : List Op)
    (res : App × List Send) (app : App) (sender : Nat) (mid : String)
    (hops : ∀ op ∈ ops, op.isRemoveSubscriber = false)
    (h : App.empty.run ops = some res) :
    res.1.mailboxInv ∧
    alLookup (app.remove_subscriber_from_mailboxes sender).mailboxes mid =
      (alLookup app.mailboxes mid).map
        (fun mb => { mb with
                     subscribers :=
                       mb.subscribers.filter (fun s => s.sender ≠ sender) }) :=
  by
  constructor
  · exact run_mailboxInv hops (fun p hp => absurd hp (List.not_mem_nil p)) h
  · simp only [App.remove_subscriber_from_mailboxes]
    exact alLookup_mapVals
      (fun mb => { mb with
                   subscribers :=
                     mb.subscribers.filter (fun s => s.sender ≠ sender) })
      app.mailboxes mid

/-- Witness for the amended C1 at a concrete run and a concrete cleanup. -/
theorem C1_amended_witness :
    (({ nameplates := [],
        mailboxes := [("m", { messages := [],
                              subscribers := [⟨"s", 0⟩] })] } : App),
      ([] : List Send)).1.mailboxInv ∧
    alLookup (({ nameplates := [],
                 mailboxes := [("m", { messages := [],
                                       subscribers := [⟨"s", 0⟩] })] } :
        App).remove_subscriber_from_mailboxes 0).mailboxes "m" =
      (alLookup ({ nameplates := [],
                   mailboxes := [("m", { messages := [],
                                         subscribers := [⟨"s", 0⟩] })] } :
          App).mailboxes "m").map
        (fun mb => { mb with
                     subscribers :=
                       mb.subscribers.filter (fun s => s.sender ≠ 0) }) :=
  C1_mailbox_invariant_amended [Op.openMb "m" "s" 0 0] _ _ 0 "m"
    (by decide) (by decide)

/-- C9 counterexample: the `ack` and `error` constructors set
`server_rx` to `None`, not to the command's receive time. -/
theorem C9_counterexample :
    (ServerMessage.ack "5d67" 0).server_rx = none ∧
    (ServerMessage.error { id := "5d67", ty := ClientMessageType.list }
      "unbound" 0).server_rx = none :=
  ⟨rfl, rfl⟩

/-- C9 (amended): every ack envelope and every error envelope the server
constructs carries `server_rx = None` (the field is omitted on the
wire); only its `server_tx` is stamped with the construction time. -/
theorem C9_ack_error_server_rx_none :
    ∀ (id : String) (cm : ClientMessage) (err : String) (now : Nat),
      (ServerMessage.ack id now).server_rx = none ∧
      (ServerMessage.ack id now).server_tx = now ∧
      (ServerMessage.error cm err now).server_rx = none ∧
      (ServerMessage.error cm err now).server_tx = now :=
  fun _ _ _ _ => ⟨rfl, rfl, rfl, rfl⟩

/-- C2: for every mailbox and every `add_message` call, each subscriber
present at the time of the call (the sender's own entry included) gets
exactly one `message` envelope carrying the message's id, side, phase
and body, and the message is appended to the mailbox's stored
sequence. -/
theorem C2_add_message_delivery (app : App) (mid : String)
    (msg : MailboxMessage) (now : Nat) (mb : Mailbox)
    (h : alLookup app.mailboxes mid = some mb) :
    (app.add_message_to_mailbox mid msg now).map Prod.snd =
      some (mb.subscribers.map
        (fun s => (s.sender, forwardEnvelope msg now))) ∧
    (forwardEnvelope msg now).id = some msg.id ∧
    (forwardEnvelope msg now).ty =
      ServerMessageType.message msg.side msg.phase msg.body ∧
    (forwardEnvelope msg now).server_rx = some msg.timestamp ∧
    (mb.add_message msg now).1.messages = mb.messages ++ [msg] := by
  unfold App.add_message_to_mailbox
  rw [h]
  exact ⟨rfl, rfl, rfl, rfl, rfl⟩

/-- Witness for C2 at a mailbox with two subscribers (the sender `"a"`
included). -/
theorem C2_witness :
    (({ nameplates := [],
        mailboxes := [("m", { messages := [],
                              subscribers := [⟨"a", 1⟩, ⟨"b", 2⟩] })] } :
        App).add_message_to_mailbox "m"
        { id := "x1", timestamp := 5, side := "a",
          phase := Phase.pake, body := [1] } 9).map Prod.snd =
      some (([⟨"a", 1⟩, ⟨"b", 2⟩] : List Subscriber).map
        (fun s => (s.sender, forwardEnvelope
          { id := "x1", timestamp := 5, side := "a",
            phase := Phase.pake, body := [1] } 9))) ∧
    (forwardEnvelope
      { id := "x1", timestamp := 5, side := "a",
        phase := Phase.pake, body := [1] } 9).id = some "x1" ∧
    (forwardEnvelope
      { id := "x1", timestamp := 5, side := "a",
        phase := Phase.pake, body := [1] } 9).ty =
      ServerMessageType.message "a" Phase.pake [1] ∧
    (forwardEnvelope
      { id := "x1", timestamp := 5, side := "a",
        phase := Phase.pake, body := [1] } 9).server_rx = some 5 ∧
    (({ messages := [], subscribers := [⟨"a", 1⟩, ⟨"b", 2⟩] } :
        Mailbox).add_message
      { id := "x1", timestamp := 5, side := "a",
        phase := Phase.pake, body := [1] } 9).1.messages =
      [] ++ [{ id := "x1", timestamp := 5, side := "a",
               phase := Phase.pake, body := [1] }] :=
  C2_add_message_delivery
    { nameplates := [],
      mailboxes := [("m", { messages := [],
                            subscribers := [⟨"a", 1⟩, ⟨"b", 2⟩] })] } "m"
    { id := "x1", timestamp := 5, side := "a",
      phase := Phase.pake, body := [1] } 9
    { messages := [], subscribers := [⟨"a", 1⟩, ⟨"b", 2⟩] } (by decide)

/-- The trace of `op :: rest` is the sends of `op` followed by the trace
of `rest`. -/
theorem run_cons_trace {app : App} {op : Op} {rest : List Op}
    {res : App × List Send} {r : App × List Send}
    (hstep : app.step op = some r)
    (hrun : app.run (op :: rest) = some res) :
    ∃ r', r.1.run rest = some r' ∧ res.2 = r.2 ++ r'.2 := by
  unfold App.run at hrun
  rw [hstep] at hrun
  obtain ⟨rapp, rsends⟩ := r
  dsimp only at hrun
  cases hr : rapp.run rest with
  | none => rw [hr] at hrun; simp at hrun
  | some r' =>
    obtain ⟨rapp', rsends'⟩ := r'
    rw [hr] at hrun
    exact ⟨(rapp', rsends'), rfl, by rw [← Option.some.inj hrun]⟩

/-- C3: opening a mailbox as a side that is not yet subscribed enqueues,
on the new subscriber's queue, exactly one envelope per stored message
in stored order, appends the subscriber, and in any continuation these
replay sends precede every later send; a side that is already subscribed
triggers no replay and no duplicate entry. -/
theorem C3_open_mailbox_replay (app : App) (mid side : String)
    (sender now : Nat) (mb : Mailbox) (rest : List Op)
    (res : App × List Send)
    (h : alLookup app.mailboxes mid = some mb)
    (hrun : app.run (Op.openMb mid side sender now :: rest) = some res) :
    ((mb.subscribers.any (fun s => s.side = side)) = false →
      (app.open_mailbox mid side sender now).2.1 =
        mb.messages.map (fun m => (sender, forwardEnvelope m now)) ∧
      alLookup (app.open_mailbox mid side sender now).1.mailboxes mid =
        some { mb with subscribers := mb.subscribers ++ [⟨side, sender⟩] } ∧
      res.2.take mb.messages.length =
        mb.messages.map (fun m => (sender, forwardEnvelope m now)))
    ∧ ((mb.subscribers.any (fun s => s.side = side)) = true →
      (app.open_mailbox mid side sender now).2.1 = [] ∧
      alLookup (app.open_mailbox mid side sender now).1.mailboxes mid =
        some mb) := by
  constructor
  · intro hany
    have hopen : app.open_mailbox mid side sender now =
        (App.mk app.nameplates
           (alInsert app.mailboxes mid
             (Mailbox.mk mb.messages (mb.subscribers ++ [⟨side, sender⟩]))),
         mb.messages.map (fun m => (sender, forwardEnvelope m now)),
         if (mb.subscribers ++ [Subscriber.mk side sender]).length ≥ 3 then
           none
         else some ()) := by
      unfold App.open_mailbox
      rw [h]
      simp [Mailbox.add_subscriber, hany]
    refine ⟨by rw [hopen], ?_, ?_⟩
    · rw [hopen]
      exact alLookup_alInsert_self _ _ _
    · have hstep : app.step (Op.openMb mid side sender now) =
          some ((app.open_mailbox mid side sender now).1,
                (app.open_mailbox mid side sender now).2.1) := rfl
      obtain ⟨r', _, htrace⟩ := run_cons_trace hstep hrun
      rw [htrace]
      have h21 : (app.open_mailbox mid side sender now).2.1 =
          mb.messages.map (fun m => (sender, forwardEnvelope m now)) := by
        rw [hopen]
      rw [h21]
      have hlen :
          (mb.messages.map (fun m => (sender, forwardEnvelope m now))).length =
            mb.messages.length := List.length_map _ _
      rw [← hlen]
      exact List.take_left _ _
  · intro hany
    have hopen : app.open_mailbox mid side sender now =
        ({ app with mailboxes := alInsert app.mailboxes mid mb }, [],
         if mb.subscribers.length ≥ 3 then none else some ()) := by
      unfold App.open_mailbox
      rw [h]
      simp [Mailbox.add_subscriber, hany]
    exact ⟨by rw [hopen], by rw [hopen]; exact alLookup_alInsert_self _ _ _⟩

/-- Concrete message for the C3 witness scenario. -/
def c3Msg : MailboxMessage :=
  { id := "i1", timestamp := 1, side := "a", phase := Phase.pake,
    body := [] }

/-- Concrete mailbox with one stored message and one subscriber. -/
def c3Mb : Mailbox := { messages := [c3Msg], subscribers := [⟨"a", 1⟩] }

/-- Concrete app holding `c3Mb` under the id `"m"`. -/
def c3App : App := { nameplates := [], mailboxes := [("m", c3Mb)] }

/-- The result of running a single fresh `open` on `c3App`. -/
def c3Res : App × List Send :=
  ({ nameplates := [],
     mailboxes := [("m", { messages := [c3Msg],
                           subscribers := [⟨"a", 1⟩, ⟨"b", 2⟩] })] },
   [(2, forwardEnvelope c3Msg 7)])

/-- Witness for C3: side `"b"` opens the mailbox `"m"` fresh and is
replayed the single stored message. -/
theorem C3_witness :
    ((c3Mb.subscribers.any (fun s => s.side = "b")) = false →
      (c3App.open_mailbox "m" "b" 2 7).2.1 =
        c3Mb.messages.map (fun m => (2, forwardEnvelope m 7)) ∧
      alLookup (c3App.open_mailbox "m" "b" 2 7).1.mailboxes "m" =
        some { c3Mb with subscribers := c3Mb.subscribers ++ [⟨"b", 2⟩] } ∧
      c3Res.2.take c3Mb.messages.length =
        c3Mb.messages.map (fun m => (2, forwardEnvelope m 7)))
    ∧ ((c3Mb.subscribers.any (fun s => s.side = "b")) = true →
      (c3App.open_mailbox "m" "b" 2 7).2.1 = [] ∧
      alLookup (c3App.open_mailbox "m" "b" 2 7).1.mailboxes "m" =
        some c3Mb) :=
  C3_open_mailbox_replay c3App "m" "b" 2 7 c3Mb [] c3Res (by decide)
    (by decide)

/-- C4: `claim_nameplate` behaves by exactly three cases — fresh
nameplate (create nameplate and mailbox, subscribe, return the fresh
MailboxId), repeated claim by the same side (return the MailboxId,
registry unchanged), and a new side (append it; Crowded, i.e. `none`,
exactly when the resulting sides list has length at least 3, with the
third side still recorded). -/
theorem C4_claim_nameplate_cases (app : App) (nid : Nat) (side : String)
    (sender : Nat) (fresh : String) (now : Nat) :
    (alLookup app.nameplates nid = none →
      alLookup app.mailboxes fresh = none →
      app.claim_nameplate nid side sender fresh now =
        some (App.mk
          (alInsert app.nameplates nid (Nameplate.mk fresh [side]))
          (alInsert app.mailboxes fresh
            (Mailbox.mk [] [Subscriber.mk side sender])),
          [], some fresh))
    ∧ (∀ np, alLookup app.nameplates nid = some np → side ∈ np.sides →
        app.claim_nameplate nid side sender fresh now =
          some (app, [], some np.mailbox_id))
    ∧ (∀ np, alLookup app.nameplates nid = some np → np.sides ≠ [] →
        side ∉ np.sides →
        app.claim_nameplate nid side sender fresh now =
          some (App.mk
            (alInsert app.nameplates nid
              (Nameplate.mk np.mailbox_id (np.sides ++ [side])))
            app.mailboxes,
            [],
            if np.sides.length + 1 ≥ 3 then none
            else some np.mailbox_id)) := by
  refine ⟨?_, ?_, ?_⟩
  · intro hnp hmb
    unfold App.claim_nameplate
    rw [hnp]
    dsimp only
    unfold App.open_mailbox
    rw [hmb]
    dsimp only
    simp [Mailbox.add_subscriber]
  · intro np hnp hside
    unfold App.claim_nameplate
    rw [hnp]
    dsimp only
    have hne : np.sides.isEmpty = false := by
      cases hs : np.sides with
      | nil => rw [hs] at hside; exact absurd hside (List.not_mem_nil side)
      | cons a t => simp
    rw [hne]
    simp [hside]
  · intro np hnp hne hside
    unfold App.claim_nameplate
    rw [hnp]
    dsimp only
    have hne' : np.sides.isEmpty = false := by
      cases hs : np.sides with
      | nil => exact absurd hs hne
      | cons a t => simp
    rw [hne']
    simp only [hside, if_false]
    have hlen : (np.sides ++ [side]).length = np.sides.length + 1 := by
      simp
    rw [hlen]
    simp [hside]

/-- Witness for C4 at the crowding boundary: a third side claims an
existing two-side nameplate, returns Crowded (`none`) and is still
recorded. -/
theorem C4_witness :
    (App.mk [(5, Nameplate.mk "m" ["a", "b"])] []).claim_nameplate
        5 "c" 0 "f" 0 =
      some (App.mk
        (alInsert [(5, Nameplate.mk "m" ["a", "b"])] 5
          (Nameplate.mk "m" (["a", "b"] ++ ["c"])))
        [],
        [],
        if (["a", "b"] : List String).length + 1 ≥ 3 then none
        else some "m") :=
  (C4_claim_nameplate_cases (App.mk [(5, Nameplate.mk "m" ["a", "b"])] [])
      5 "c" 0 "f" 0).2.2 (Nameplate.mk "m" ["a", "b"])
    (by decide) (by decide) (by decide)

/-- What a successful `find?` over an ascending integer range means: the
hit satisfies the predicate, lies in the range, and every smaller value
in the range fails the predicate. -/
theorem find?_range'_some {p : Nat → Bool} :
    ∀ (n s x : Nat), (List.range' s n).find? p = some x →
      p x = true ∧ s ≤ x ∧ x < s + n ∧
        ∀ j, s ≤ j → j < x → p j = false := by
  intro n
  induction n with
  | zero => intro s x h; simp at h
  | succ m ih =>
    intro s x h
    rw [List.range'_succ] at h
    by_cases hp : p s = true
    · rw [List.find?_cons_of_pos _ hp] at h
      obtain rfl := Option.some.inj h
      exact ⟨hp, le_refl s, by omega, fun j hj1 hj2 => absurd hj2 (by omega)⟩
    · rw [List.find?_cons_of_neg _ hp] at h
      obtain ⟨h1, h2, h3, h4⟩ := ih (s + 1) x h
      rw [Bool.not_eq_true] at hp
      refine ⟨h1, by omega, by omega, ?_⟩
      intro j hj1 hj2
      by_cases hjs : j = s
      · rw [hjs]; exact hp
      · exact h4 j (by omega) hj2

/-- Converse: the first value in the range satisfying the predicate is
found. -/
theorem find?_range'_eq_some_of {p : Nat → Bool} :
    ∀ (n s x : Nat), s ≤ x → x < s + n → p x = true →
      (∀ j, s ≤ j → j < x → p j = false) →
      (List.range' s n).find? p = some x := by
  intro n
  induction n with
  | zero => intro s x h1 h2 _ _; exact absurd h2 (by omega)
  | succ m ih =>
    intro s x h1 h2 hx hbelow
    rw [List.range'_succ]
    by_cases hsx : s = x
    · rw [List.find?_cons_of_pos _ (by rw [hsx]; exact hx)]
      rw [hsx]
    · have hps : p s = false := hbelow s (le_refl s) (by omega)
      rw [List.find?_cons_of_neg _ (by simp [hps])]
      exact ih (s + 1) x (by omega) (by omega) hx
        (fun j hj1 hj2 => hbelow j (by omega) hj2)

/-- The allocate operation built from one parameter tuple
(side, sender, fresh mailbox id, clock reading). -/
def mkAllocOp (q : String × Nat × String × Nat) : Op :=
  Op.allocate q.1 q.2.1 q.2.2.1 q.2.2.2

/-- Running a batch of allocates from a state whose nameplate keys are
exactly `{1, …, k}` succeeds and extends the key set to
`{1, …, k + batch length}`. -/
theorem allocate_seq_keys :
    ∀ (params : List (String × Nat × String × Nat)) (k : Nat) (app : App),
      (∀ i, (alLookup app.nameplates i).isSome = true ↔
        (1 ≤ i ∧ i ≤ k)) →
      k + params.length ≤ 998 →
      ∃ res, app.run (params.map mkAllocOp) = some res ∧
        ∀ i, (alLookup res.1.nameplates i).isSome = true ↔
          (1 ≤ i ∧ i ≤ k + params.length) := by
  intro params
  induction params with
  | nil =>
    intro k app hkeys _
    exact ⟨(app, []), rfl, by simpa using hkeys⟩
  | cons q qs ih =>
    intro k app hkeys hlen
    obtain ⟨sd, sn, fm, nw⟩ := q
    have hlen' : k + (qs.length + 1) ≤ 998 := by simpa using hlen
    have hlook : alLookup app.nameplates (k + 1) = none := by
      cases ho : alLookup app.nameplates (k + 1) with
      | none => rfl
      | some v =>
        have hs : (alLookup app.nameplates (k + 1)).isSome = true := by
          rw [ho]; rfl
        have := (hkeys (k + 1)).mp hs
        omega
    have hfind : (List.range' 1 998).find?
        (fun i => (alLookup app.nameplates i).isNone) = some (k + 1) := by
      apply find?_range'_eq_some_of
      · omega
      · omega
      · rw [hlook]; rfl
      · intro j hj1 hj2
        have hs : (alLookup app.nameplates j).isSome = true :=
          (hkeys j).mpr ⟨hj1, by omega⟩
        cases ho : alLookup app.nameplates j with
        | none => rw [ho] at hs; simp at hs
        | some v => rfl
    have hstep : app.step (Op.allocate sd sn fm nw) =
        some (App.mk
          (alInsert (app.open_mailbox fm sd sn nw).1.nameplates (k + 1)
            (Nameplate.mk fm [sd]))
          (app.open_mailbox fm sd sn nw).1.mailboxes,
          (app.open_mailbox fm sd sn nw).2.1) := by
      simp only [App.step, App.allocate_nameplate, hfind,
        App.claim_nameplate, hlook]
      rfl
    have hkeysNext : ∀ i,
        (alLookup (App.mk
          (alInsert (app.open_mailbox fm sd sn nw).1.nameplates (k + 1)
            (Nameplate.mk fm [sd]))
          (app.open_mailbox fm sd sn nw).1.mailboxes).nameplates i).isSome
          = true ↔ (1 ≤ i ∧ i ≤ k + 1) := by
      intro i
      dsimp only
      rw [open_mailbox_nameplates]
      by_cases hik : i = k + 1
      · rw [hik, alLookup_alInsert_self]
        simp
      · rw [alLookup_alInsert_ne _ _ _ _ hik]
        rw [hkeys i]
        omega
    obtain ⟨res', hrun', hkeys'⟩ :=
      ih (k + 1)
        (App.mk
          (alInsert (app.open_mailbox fm sd sn nw).1.nameplates (k + 1)
            (Nameplate.mk fm [sd]))
          (app.open_mailbox fm sd sn nw).1.mailboxes)
        hkeysNext (by simp at hlen ⊢; omega)
    obtain ⟨ra, rs⟩ := res'
    refine ⟨(ra, (app.open_mailbox fm sd sn nw).2.1 ++ rs), ?_, ?_⟩
    · rw [List.map_cons]
      unfold App.run
      simp only [mkAllocOp]
      rw [hstep]
      dsimp only
      rw [hrun']
    · intro i
      dsimp only
      dsimp only at hkeys'
      rw [hkeys' i]
      simp only [List.length_cons]
      omega

/-- C5: `allocate_nameplate` claims the smallest id in 1..=998 not in
the nameplates map (recording it for the caller); when every id is taken
it returns `none` with the registry unchanged; and starting from the
empty App, N successful allocates issue exactly the ids {1, …, N}. -/
theorem C5_allocate_smallest (app : App) (side : String) (sender : Nat)
    (fresh : String) (now : Nat) :
    ((∀ j, 1 ≤ j → j ≤ 998 →
        (alLookup app.nameplates j).isSome = true) →
      app.allocate_nameplate side sender fresh now = some (app, [], none))
    ∧ (∀ i, 1 ≤ i → i ≤ 998 → alLookup app.nameplates i = none →
        (∀ j, 1 ≤ j → j < i → (alLookup app.nameplates j).isSome = true) →
        ∃ r, app.allocate_nameplate side sender fresh now = some r ∧
          r.2.2 = some i ∧
          alLookup r.1.nameplates i = some (Nameplate.mk fresh [side]))
    ∧ (∀ params : List (String × Nat × String × Nat),
        params.length ≤ 998 →
        ∃ res, App.empty.run (params.map mkAllocOp) = some res ∧
          ∀ i, (alLookup res.1.nameplates i).isSome = true ↔
            (1 ≤ i ∧ i ≤ params.length)) := by
  refine ⟨?_, ?_, ?_⟩
  · intro htaken
    have hfind : (List.range' 1 998).find?
        (fun i => (alLookup app.nameplates i).isNone) = none := by
      rw [List.find?_eq_none]
      intro x hx
      rw [List.mem_range'_1] at hx
      have hs := htaken x hx.1 (by omega)
      cases ho : alLookup app.nameplates x with
      | none => rw [ho] at hs; simp at hs
      | some v => simp [ho]
    unfold App.allocate_nameplate
    rw [hfind]
  · intro i h1 h2 hfree hbelow
    have hfind : (List.range' 1 998).find?
        (fun i => (alLookup app.nameplates i).isNone) = some i := by
      apply find?_range'_eq_some_of
      · omega
      · omega
      · rw [hfree]; rfl
      · intro j hj1 hj2
        have hs := hbelow j hj1 hj2
        cases ho : alLookup app.nameplates j with
        | none => rw [ho] at hs; simp at hs
        | some v => rfl
    refine ⟨(App.mk
        (alInsert (app.open_mailbox fresh side sender now).1.nameplates i
          (Nameplate.mk fresh [side]))
        (app.open_mailbox fresh side sender now).1.mailboxes,
      (app.open_mailbox fresh side sender now).2.1, some i), ?_, rfl, ?_⟩
    · unfold App.allocate_nameplate
      rw [hfind]
      simp only [App.claim_nameplate, hfree]
    · exact alLookup_alInsert_self _ _ _
  · intro params hlen
    have hkeys0 : ∀ i,
        (alLookup (App.empty).nameplates i).isSome = true ↔
          (1 ≤ i ∧ i ≤ 0) := by
      intro i
      constructor
      · intro hs; simp [App.empty, alLookup] at hs
      · intro hi; omega
    obtain ⟨res, hrun, hk⟩ := allocate_seq_keys params 0 App.empty
      hkeys0 (by omega)
    exact ⟨res, hrun, by simpa using hk⟩

/-- Witness for C5: the very first allocate on the empty App issues
nameplate 1 and records the caller's side on it. -/
theorem C5_witness :
    ∃ r, App.empty.allocate_nameplate "s" 0 "f" 0 = some r ∧
      r.2.2 = some 1 ∧
      alLookup r.1.nameplates 1 = some (Nameplate.mk "f" ["s"]) := by
  exact (C5_allocate_smallest App.empty "s" 0 "f" 0).2.1 1 (by decide)
    (by decide) (by decide) (by intro j hj1 hj2; omega)

/-! ## Client crypto (src/client/crypto.rs)

Bytes are `List Nat` with values < 256.  SHA-256, HMAC and HKDF are
implemented concretely so that the fixed test vectors evaluate. -/

/-- 32-bit addition. -/
def add32 (a b : Nat) : Nat := (a + b) % 4294967296

/-- 32-bit right rotation. -/
def rotr32 (x n : Nat) : Nat :=
  ((x >>> n) ||| (x <<< (32 - n))) % 4294967296

/-- 32-bit left rotation. -/
def rotl32 (x n : Nat) : Nat :=
  ((x <<< n) % 4294967296) ||| (x >>> (32 - n))

/-- 32-bit complement. -/
def not32 (x : Nat) : Nat := x ^^^ 4294967295

/-- Big-endian bytes of `n`, `k` bytes wide. -/
def natToBytesBE : Nat → Nat → List Nat
  | 0, _ => []
  | k + 1, n => natToBytesBE k (n / 256) ++ [n % 256]

/-- Little-endian bytes of `n`, `k` bytes wide. -/
def natToBytesLE : Nat → Nat → List Nat
  | 0, _ => []
  | k + 1, n => n % 256 :: natToBytesLE k (n / 256)

/-- Big-endian 32-bit words from bytes. -/
def bytesToWordsBE : List Nat → List Nat
  | b0 :: b1 :: b2 :: b3 :: rest =>
    (((b0 * 256 + b1) * 256 + b2) * 256 + b3) :: bytesToWordsBE rest
  | _ => []

/-- Little-endian 32-bit words from bytes. -/
def bytesToWordsLE : List Nat → List Nat
  | b0 :: b1 :: b2 :: b3 :: rest =>
    (((b3 * 256 + b2) * 256 + b1) * 256 + b0) :: bytesToWordsLE rest
  | _ => []

/-- Little-endian value of a byte string. -/
def bytesToNatLE : List Nat → Nat
  | [] => 0
  | b :: rest => b + 256 * bytesToNatLE rest

/-- Split a list into chunks of `sz` bytes (`fuel` bounds the number of
chunks; called with `fuel = l.length` so it never runs out). -/
def chunkBy : Nat → Nat → List Nat → List (List Nat)
  | 0, _, _ => []
  | _, _, [] => []
  | fuel + 1, sz, l => l.take sz :: chunkBy fuel sz (l.drop sz)

/-- The SHA-256 round constants. -/
def sha256K : List Nat :=
  [1116352408, 1899447441, 3049323471, 3921009573, 961987163,
   1508970993, 2453635748, 2870763221, 3624381080, 310598401,
   607225278, 1426881987, 1925078388, 2162078206, 2614888103,
   3248222580, 3835390401, 4022224774, 264347078, 604807628,
   770255983, 1249150122, 1555081692, 1996064986, 2554220882,
   2821834349, 2952996808, 3210313671, 3336571891, 3584528711,
   113926993, 338241895, 666307205, 773529912, 1294757372,
   1396182291, 1695183700, 1986661051, 2177026350, 2456956037,
   2730485921, 2820302411, 3259730800, 3345764771, 3516065817,
   3600352804, 4094571909, 275423344, 430227734, 506948616,
   659060556, 883997877, 958139571, 1322822218, 1537002063,
   1747873779, 1955562222, 2024104815, 2227730452, 2361852424,
   2428436474, 2756734187, 3204031479, 3329325298]

/-- The SHA-256 initial hash state. -/
def sha256H0 : List Nat :=
  [1779033703, 3144134277, 1013904242, 2773480762,
   1359893119, 2600822924, 528734635, 1541459225]

/-- SHA-256 message-schedule extension of a 16-word block to 64 words. -/
def sha256Schedule (ws : List Nat) : List Nat :=
  (List.range 48).foldl
    (fun acc _ =>
      let i := acc.length
      let w15 := acc.getD (i - 15) 0
      let w2 := acc.getD (i - 2) 0
      let s0 := rotr32 w15 7 ^^^ rotr32 w15 18 ^^^ (w15 >>> 3)
      let s1 := rotr32 w2 17 ^^^ rotr32 w2 19 ^^^ (w2 >>> 10)
      acc ++ [add32 (add32 (acc.getD (i - 16) 0) s0)
               (add32 (acc.getD (i - 7) 0) s1)])
    ws

/-- One SHA-256 compression of a 64-byte block into the running state. -/
def sha256Compress (hs : List Nat) (block : List Nat) : List Nat :=
  let w := sha256Schedule (bytesToWordsBE block)
  let st := (List.range 64).foldl
    (fun st i =>
      match st with
      | [a, b, c, d, e, f, g, hh] =>
        let s1 := rotr32 e 6 ^^^ rotr32 e 11 ^^^ rotr32 e 25
        let ch := (e &&& f) ^^^ (not32 e &&& g)
        let t1 := add32 (add32 (add32 hh s1) ch)
          (add32 (sha256K.getD i 0) (w.getD i 0))
        let s0 := rotr32 a 2 ^^^ rotr32 a 13 ^^^ rotr32 a 22
        let mj := (a &&& b) ^^^ (a &&& c) ^^^ (b &&& c)
        let t2 := add32 s0 mj
        [add32 t1 t2, a, b, c, add32 d t1, e, f, g]
      | _ => st)
    hs
  List.zipWith add32 hs st

/-- SHA-256 padding: `0x80`, zeros to 56 mod 64, 64-bit big-endian bit
length. -/
def sha256Pad (msg : List Nat) : List Nat :=
  msg ++ [128] ++
    List.replicate ((119 - (msg.length % 64)) % 64) 0 ++
    natToBytesBE 8 (msg.length * 8)

/-- SHA-256 of a byte string. -/
def sha256 (msg : List Nat) : List Nat :=
  let padded := sha256Pad msg
  let final := (chunkBy padded.length 64 padded).foldl sha256Compress
    sha256H0
  (final.map (natToBytesBE 4)).flatten

/-- HMAC-SHA-256. -/
def hmacSha256 (key msg : List Nat) : List Nat :=
  let k0 := if key.length > 64 then sha256 key else key
  let kp := k0 ++ List.replicate (64 - k0.length) 0
  sha256 ((kp.map (fun b => b ^^^ 92)) ++
    sha256 ((kp.map (fun b => b ^^^ 54)) ++ msg))

/-- HKDF-SHA-256 extract; a `None` salt is a zero-filled hash-length
string. -/
def hkdfExtract (salt ikm : List Nat) : List Nat := hmacSha256 salt ikm

/-- HKDF-SHA-256 expand to `len` bytes. -/
def hkdfExpand (prk info : List Nat) (len : Nat) : List Nat :=
  ((List.range ((len + 31) / 32)).foldl
    (fun (acc : List Nat × List Nat) i =>
      let t := hmacSha256 prk (acc.2 ++ info ++ [i + 1])
      (acc.1 ++ t, t))
    ([], [])).1.take len

/-- ASCII bytes of a Lean string literal (all literals used are
ASCII). -/
def strBytes (s : String) : List Nat := s.data.map Char.toNat

/-- Decimal digit bytes, fuelled so the recursion is structural. -/
def decDigitsAux : Nat → Nat → List Nat
  | 0, n => [48 + n % 10]
  | fuel + 1, n =>
    if n < 10 then [48 + n] else decDigitsAux fuel (n / 10) ++ [48 + n % 10]

/-- ASCII decimal rendering of a natural number. -/
def natToDecimalBytes (n : Nat) : List Nat := decDigitsAux n n

/-- The wire form of a `Phase`, as serialized by serde
(src/message.rs lines 90-98): `"pake"`, `"version"`, or the decimal
string of the numeric phase. -/
def phaseWireBytes : Phase → List Nat
  | Phase.pake => strBytes "pake"
  | Phase.version => strBytes "version"
  | Phase.message n => natToDecimalBytes n

/-- `generate_purpose` (src/client/crypto.rs lines 22-32). -/
def generate_purpose (side : List Nat) (phase : Phase) : List Nat :=
  strBytes "wormhole:phase:" ++ sha256 side ++ sha256 (phaseWireBytes phase)

/-- `derive_phase_key` (src/client/crypto.rs lines 35-41): HKDF-SHA-256
with no salt, IKM = key, info = purpose, length 42; only the first
32 bytes (the secretbox key size) are kept. -/
def derive_phase_key (key side : List Nat) (phase : Phase) : List Nat :=
  (hkdfExpand (hkdfExtract (List.replicate 32 0) key)
    (generate_purpose side phase) 42).take 32

set_option maxRecDepth 100000 in
/-- C7: the phase key is the first 32 bytes of the 42-byte HKDF-SHA-256
expansion with no salt (zero-filled), IKM = K, info = the purpose string
`"wormhole:phase:" ++ SHA-256(side) ++ SHA-256(phase wire form)`; in
particular for K = "password", side = "abcd1234", phase = version the
key is the fixed 32-byte vector `ed da 90 2a …`. -/
theorem C7_phase_key_derivation :
    (∀ (key side : List Nat) (phase : Phase),
      derive_phase_key key side phase =
        (hkdfExpand (hkdfExtract (List.replicate 32 0) key)
          (strBytes "wormhole:phase:" ++ sha256 side ++
            sha256 (phaseWireBytes phase)) 42).take 32) ∧
    generate_purpose (strBytes "abcd1234") Phase.version =
      strBytes "wormhole:phase:" ++ sha256 (strBytes "abcd1234") ++
        sha256 (strBytes "version") ∧
    derive_phase_key (strBytes "password") (strBytes "abcd1234")
        Phase.version =
      [0xed, 0xda, 0x90, 0x2a, 0x67, 0xc7, 0xf4, 0xef,
       0x60, 0x8a, 0xe7, 0xcb, 0xbf, 0x26, 0xb1, 0x6b,
       0x1f, 0xe6, 0x1f, 0x9f, 0x4d, 0xc1, 0x80, 0xb1,
       0xab, 0xb3, 0xa0, 0x24, 0xf4, 0xfb, 0xc1, 0x2a] :=
  ⟨fun _ _ _ => rfl, rfl, by decide⟩

/-! ## XSalsa20-Poly1305 secretbox

Modelled from the spec: the `crypto_secretbox` crate used by
src/client/crypto.rs is not part of this repository; §4.5 of the spec
fixes the construction ("encrypt with XSalsa20-Poly1305 using the phase
key; the body field on the wire is nonce ∥ ciphertext ∥ tag", 24-byte
nonce), which is implemented here concretely: HSalsa20 subkey
derivation, the Salsa20 stream, the first 32 keystream bytes as the
Poly1305 key, and the Poly1305 tag over the ciphertext. -/

/-- Little-endian serialization of 32-bit words. -/
def wordsToBytesLE (ws : List Nat) : List Nat :=
  (ws.map (natToBytesLE 4)).flatten

/-- The Salsa20 quarterround. -/
def qrOp (a b c d : Nat) : Nat × Nat × Nat × Nat :=
  let b1 := b ^^^ rotl32 (add32 a d) 7
  let c1 := c ^^^ rotl32 (add32 b1 a) 9
  let d1 := d ^^^ rotl32 (add32 c1 b1) 13
  let a1 := a ^^^ rotl32 (add32 d1 c1) 18
  (a1, b1, c1, d1)

/-- One Salsa20 double round (columnround then rowround). -/
def doubleround (st : List Nat) : List Nat :=
  match st with
  | [x0, x1, x2, x3, x4, x5, x6, x7, x8, x9, x10, x11, x12, x13, x14,
     x15] =>
    let (y0, y4, y8, y12) := qrOp x0 x4 x8 x12
    let (y5, y9, y13, y1) := qrOp x5 x9 x13 x1
    let (y10, y14, y2, y6) := qrOp x10 x14 x2 x6
    let (y15, y3, y7, y11) := qrOp x15 x3 x7 x11
    let (z0, z1, z2, z3) := qrOp y0 y1 y2 y3
    let (z5, z6, z7, z4) := qrOp y5 y6 y7 y4
    let (z10, z11, z8, z9) := qrOp y10 y11 y8 y9
    let (z15, z12, z13, z14) := qrOp y15 y12 y13 y14
    [z0, z1, z2, z3, z4, z5, z6, z7, z8, z9, z10, z11, z12, z13, z14,
     z15]
  | _ => st

/-- Ten Salsa20 double rounds. -/
def rounds20 (st : List Nat) : List Nat :=
  (List.range 10).foldl (fun s _ => doubleround s) st

/-- The Salsa20 core: twenty rounds plus the feed-forward addition. -/
def salsa20Core (st : List Nat) : List Nat :=
  List.zipWith add32 (rounds20 st) st

/-- The "expand 32-byte k" constants. -/
def salsaConst : List Nat :=
  [0x61707865, 0x3320646e, 0x79622d32, 0x6b206574]

/-- The Salsa20 initial state from a 32-byte key and a 16-byte input
(nonce/counter) block. -/
def salsaState (key input16 : List Nat) : List Nat :=
  let k := bytesToWordsLE key
  let n := bytesToWordsLE input16
  [salsaConst.getD 0 0, k.getD 0 0, k.getD 1 0, k.getD 2 0,
   k.getD 3 0, salsaConst.getD 1 0, n.getD 0 0, n.getD 1 0,
   n.getD 2 0, n.getD 3 0, salsaConst.getD 2 0, k.getD 4 0,
   k.getD 5 0, k.getD 6 0, k.getD 7 0, salsaConst.getD 3 0]

/-- One 64-byte Salsa20 keystream block for an 8-byte nonce and a block
counter. -/
def salsa20Block (key n8 : List Nat) (ctr : Nat) : List Nat :=
  wordsToBytesLE (salsa20Core (salsaState key (n8 ++ natToBytesLE 8 ctr)))

/-- HSalsa20: twenty rounds without the feed-forward, keyed output words
0, 5, 10, 15, 6, 7, 8, 9. -/
def hsalsa20 (key n16 : List Nat) : List Nat :=
  let z := rounds20 (salsaState key n16)
  wordsToBytesLE [z.getD 0 0, z.getD 5 0, z.getD 10 0, z.getD 15 0,
                  z.getD 6 0, z.getD 7 0, z.getD 8 0, z.getD 9 0]

/-- Truncate or zero-pad to exactly `n` bytes (the padding branch is
unreachable when enough keystream blocks were generated). -/
def takePad (n : Nat) (l : List Nat) : List Nat :=
  l.take n ++ List.replicate (n - l.length) 0

/-- `len` bytes of XSalsa20 keystream: HSalsa20 subkey from the first
16 nonce bytes, then Salsa20 blocks over the last 8 nonce bytes. -/
def xsalsa20KeyStream (key nonce24 : List Nat) (len : Nat) : List Nat :=
  takePad len
    (((List.range ((len + 63) / 64)).map
      (fun i => salsa20Block (hsalsa20 key (nonce24.take 16))
        (nonce24.drop 16) i)).flatten)

/-- The Poly1305 clamp of `r`. -/
def poly1305Clamp (r : Nat) : Nat :=
  r &&& 0x0ffffffc0ffffffc0ffffffc0fffffff

/-- The Poly1305 one-time authenticator. -/
def poly1305 (msg key32 : List Nat) : List Nat :=
  let r := poly1305Clamp (bytesToNatLE (key32.take 16))
  let s := bytesToNatLE (key32.drop 16)
  let p := 2 ^ 130 - 5
  let hfin := (chunkBy msg.length 16 msg).foldl
    (fun acc chunk =>
      ((acc + bytesToNatLE chunk + 2 ^ (8 * chunk.length)) * r) % p) 0
  natToBytesLE 16 ((hfin + s) % 2 ^ 128)

/-- Secretbox sealing: ciphertext followed by the Poly1305 tag. -/
def secretboxSeal (key nonce msg : List Nat) : List Nat :=
  let ks := xsalsa20KeyStream key nonce (32 + msg.length)
  let ct := List.zipWith Nat.xor msg (ks.drop 32)
  ct ++ poly1305 ct (ks.take 32)

/-- Secretbox opening: verify the trailing tag, then un-xor. -/
def secretboxOpen (key nonce ctt : List Nat) : Except Unit (List Nat) :=
  if ctt.length < 16 then Except.error () else
  let ks := xsalsa20KeyStream key nonce (32 + (ctt.length - 16))
  let ct := ctt.take (ctt.length - 16)
  let tag := ctt.drop (ctt.length - 16)
  if poly1305 ct (ks.take 32) = tag then
    Except.ok (List.zipWith Nat.xor ct (ks.drop 32))
  else Except.error ()

/-- UTF-8 validity of a byte string (the check behind Rust's
`String::from_utf8`). -/
def utf8Valid : List Nat → Bool
  | [] => true
  | b :: rest =>
    if b < 128 then utf8Valid rest
    else if 194 ≤ b ∧ b ≤ 223 then
      match rest with
      | c1 :: rest2 =>
        (128 ≤ c1 && c1 ≤ 191) && utf8Valid rest2
      | [] => false
    else if 224 ≤ b ∧ b ≤ 239 then
      match rest with
      | c1 :: c2 :: rest2 =>
        (decide ((b = 224 ∧ 160 ≤ c1 ∧ c1 ≤ 191) ∨
          (225 ≤ b ∧ b ≤ 236 ∧ 128 ≤ c1 ∧ c1 ≤ 191) ∨
          (b = 237 ∧ 128 ≤ c1 ∧ c1 ≤ 159) ∨
          (238 ≤ b ∧ 128 ≤ c1 ∧ c1 ≤ 191)) &&
         (128 ≤ c2 && c2 ≤ 191)) && utf8Valid rest2
      | _ => false
    else if 240 ≤ b ∧ b ≤ 244 then
      match rest with
      | c1 :: c2 :: c3 :: rest2 =>
        (decide ((b = 240 ∧ 144 ≤ c1 ∧ c1 ≤ 191) ∨
          (241 ≤ b ∧ b ≤ 243 ∧ 128 ≤ c1 ∧ c1 ≤ 191) ∨
          (b = 244 ∧ 128 ≤ c1 ∧ c1 ≤ 143)) &&
         (128 ≤ c2 && c2 ≤ 191) && (128 ≤ c3 && c3 ≤ 191)) &&
        utf8Valid rest2
      | _ => false
    else false

/-- `encrypt_message` (src/client/crypto.rs lines 44-57): derive the
phase key, seal with a fresh 24-byte nonce (passed in explicitly here),
and prepend the nonce. -/
def encrypt_message (message key side : List Nat) (phase : Phase)
    (nonce : List Nat) : List Nat :=
  nonce ++ secretboxSeal (derive_phase_key key side phase) nonce message

/-- `decrypt_message` (src/client/crypto.rs lines 60-71): split the
nonce off the front (`split_at` panics — `none` — on inputs shorter than
24 bytes), open the box, and UTF-8-check the plaintext (`expect` panics
on invalid UTF-8). -/
def decrypt_message (message key side : List Nat) (phase : Phase) :
    Option (Except Unit (List Nat)) :=
  if message.length < 24 then none
  else
    match secretboxOpen (derive_phase_key key side phase)
        (message.take 24) (message.drop 24) with
    | Except.error e => some (Except.error e)
    | Except.ok pt =>
      if utf8Valid pt then some (Except.ok pt) else none

/-- `natToBytesLE` always yields the requested width. -/
theorem natToBytesLE_length : ∀ (k n : Nat), (natToBytesLE k n).length = k
  | 0, _ => rfl
  | k + 1, n => by
    unfold natToBytesLE
    rw [List.length_cons, natToBytesLE_length k]

/-- The Poly1305 tag is 16 bytes. -/
theorem poly1305_length (msg key32 : List Nat) :
    (poly1305 msg key32).length = 16 := by
  unfold poly1305
  exact natToBytesLE_length 16 _

/-- `takePad` yields exactly the requested length. -/
theorem takePad_length (n : Nat) (l : List Nat) :
    (takePad n l).length = n := by
  simp [takePad]
  omega

/-- The keystream has exactly the requested length. -/
theorem xsalsa20KeyStream_length (key nonce24 : List Nat) (len : Nat) :
    (xsalsa20KeyStream key nonce24 len).length = len :=
  takePad_length len _

/-- Xoring twice with the same (sufficiently long) keystream is the
identity. -/
theorem zipWith_xor_cancel :
    ∀ (a b : List Nat), a.length ≤ b.length →
      List.zipWith Nat.xor (List.zipWith Nat.xor a b) b = a := by
  intro a
  induction a with
  | nil => intro b _; simp
  | cons x xs ih =>
    intro b hb
    cases b with
    | nil => simp at hb
    | cons y ys =>
      simp only [List.zipWith_cons_cons]
      have hcancel : ∀ m n : Nat, Nat.xor (Nat.xor m n) n = m :=
        fun m n => Nat.xor_cancel_right n m
      rw [hcancel, ih ys (by simpa using hb)]

/-- Taking the length of the left part of an append. -/
theorem take_len_append {a b : List Nat} {n : Nat} (h : a.length = n) :
    (a ++ b).take n = a := by
  rw [← h]
  exact List.take_left a b

/-- Dropping the length of the left part of an append. -/
theorem drop_len_append {a b : List Nat} {n : Nat} (h : a.length = n) :
    (a ++ b).drop n = b := by
  rw [← h]
  exact List.drop_left a b

/-- Opening a freshly sealed box returns the original plaintext. -/
theorem secretbox_roundtrip (key nonce msg : List Nat) :
    secretboxOpen key nonce (secretboxSeal key nonce msg) =
      Except.ok msg := by
  have hks_len : (xsalsa20KeyStream key nonce (32 + msg.length)).length =
      32 + msg.length := xsalsa20KeyStream_length _ _ _
  have hct_len : (List.zipWith Nat.xor msg
      ((xsalsa20KeyStream key nonce (32 + msg.length)).drop 32)).length =
      msg.length := by
    rw [List.length_zipWith, List.length_drop, hks_len]
    omega
  have htag_len : (poly1305
      (List.zipWith Nat.xor msg
        ((xsalsa20KeyStream key nonce (32 + msg.length)).drop 32))
      ((xsalsa20KeyStream key nonce (32 + msg.length)).take 32)).length =
      16 := poly1305_length _ _
  unfold secretboxSeal secretboxOpen
  dsimp only
  rw [List.length_append, hct_len, htag_len]
  rw [if_neg (by omega)]
  rw [Nat.add_sub_cancel]
  rw [take_len_append hct_len, drop_len_append hct_len]
  rw [if_pos rfl]
  exact congrArg Except.ok
    (zipWith_xor_cancel msg _ (by rw [List.length_drop, hks_len]; omega))

/-- C8: decrypting the output of `encrypt_message` with the same key,
side and phase (for any 24-byte nonce chosen during encryption, and any
plaintext, i.e. any valid-UTF-8 byte string, as the Rust plaintext is a
`&str`) returns `Ok` of the original plaintext. -/
theorem C8_encrypt_decrypt_roundtrip (key side msg nonce : List Nat)
    (phase : Phase) (hn : nonce.length = 24)
    (hm : utf8Valid msg = true) :
    decrypt_message (encrypt_message msg key side phase nonce) key side
      phase = some (Except.ok msg) := by
  unfold encrypt_message decrypt_message
  rw [List.length_append, hn]
  rw [if_neg (by omega)]
  rw [take_len_append hn, drop_len_append hn]
  rw [secretbox_roundtrip]
  dsimp only
  rw [if_pos hm]

/-- Witness for C8: the two-byte message "hi" round-trips under the key
"password", side "abcd1234", phase `version` and an all-7 nonce. -/
theorem C8_witness :
    decrypt_message
      (encrypt_message [104, 105] (strBytes "password")
        (strBytes "abcd1234") Phase.version (List.replicate 24 7))
      (strBytes "password") (strBytes "abcd1234") Phase.version =
    some (Except.ok [104, 105]) :=
  C8_encrypt_decrypt_roundtrip (strBytes "password")
    (strBytes "abcd1234") [104, 105] (List.replicate 24 7) Phase.version
    (by decide) (by decide)

/-- C10: `decrypt_message` panics (models to `none`) exactly on inputs
shorter than 24 bytes — the `split_at` — and on successfully decrypted
plaintexts that are not valid UTF-8 — the `expect`; for every input of
at least 24 bytes the nonce split succeeds and the only remaining panic
is the UTF-8 one. -/
theorem C10_decrypt_panic_conditions (input key side : List Nat)
    (phase : Phase) :
    (input.length < 24 → decrypt_message input key side phase = none) ∧
    (24 ≤ input.length →
      (decrypt_message input key side phase = none ↔
        ∃ pt, secretboxOpen (derive_phase_key key side phase)
            (input.take 24) (input.drop 24) = Except.ok pt ∧
          utf8Valid pt = false)) := by
  constructor
  · intro hlt
    unfold decrypt_message
    rw [if_pos hlt]
  · intro hge
    unfold decrypt_message
    rw [if_neg (by omega)]
    cases ho : secretboxOpen (derive_phase_key key side phase)
        (input.take 24) (input.drop 24) with
    | error e =>
      dsimp only
      constructor
      · intro h
        exact absurd h (by simp)
      · rintro ⟨pt, hpt, _⟩
        exact absurd hpt (by simp)
    | ok pt =>
      dsimp only
      by_cases hu : utf8Valid pt = true
      · rw [if_pos hu]
        constructor
        · intro h
          exact absurd h (by simp)
        · rintro ⟨pt', hpt', hval⟩
          obtain rfl : pt = pt' := by injection hpt'
          rw [hval] at hu
          exact Bool.noConfusion hu
      · rw [if_neg hu]
        rw [Bool.not_eq_true] at hu
        exact ⟨fun _ => ⟨pt, rfl, hu⟩, fun _ => rfl⟩

/-- Witness for C10: a three-byte input panics at the nonce split. -/
theorem C10_witness :
    decrypt_message [0, 1, 2] [] [] Phase.pake = none :=
  (C10_decrypt_panic_conditions [0, 1, 2] [] [] Phase.pake).1 (by decide)
